import Mathlib

/-!
Verification of the prompt-to-operation resolution pipeline and the
tree-transformation engine of the `prompt_auto_refactor` repository.

The development shallowly embeds the two core modules:
  * `src/refactor/refactoring_engine.py` (`RefactoringEngine`, the per-operation
    tree rewrites built on `ast.NodeTransformer`, plus the string-level
    `_extract_method`), and
  * `src/prompt/prompt_processor.py` (`PromptProcessor.parse_prompt` and friends,
    including the regular-expression pattern catalog).

Python's `ast` trees are embedded as a fragment covering the node kinds the
engine manipulates (`Module`, `FunctionDef`, `ClassDef`, `Return`, `Assign`,
`Expr`, `Pass`; `Name`, `Constant` (int), `BinOp`, `Call`, `Attribute`).
`ast.unparse` is embedded for that fragment, reproducing CPython's rendering
(statements joined by single newlines, an extra blank line before each
function/class definition that is not at the very start of the output,
four-space indentation, and precedence-driven parenthesisation of `BinOp`).
`ast.NodeTransformer` traversals become explicit recursions that thread the
visitor's mutable state in program order and mirror exactly which visit
methods recurse (`generic_visit`) and which do not.

Python exceptions are embedded as explicit error values (`Except`); machine
behaviour that depends on CPython object identity (`ast.Pass() == ast.Pass()`
is `False` because AST nodes compare by identity) is modelled as the branch it
actually takes at run time, with a comment at the spot.
-/

/-! ## Python string primitives -/

/-- Whitespace characters recognised by Python's `str.strip()` and `\s`. -/
def pySpaceChar (c : Char) : Bool :=
  c = ' ' || c = '\t' || c = '\n' || c = '\r' || c = '\x0b' || c = '\x0c'

/-- Drop leading whitespace from a character list. -/
def dropSpaceLeft : List Char → List Char
  | [] => []
  | c :: cs => if pySpaceChar c then dropSpaceLeft cs else c :: cs

/-- Python `str.strip()`: remove leading and trailing whitespace. -/
def pyStrip (s : String) : String :=
  String.mk ((dropSpaceLeft (dropSpaceLeft s.toList.reverse).reverse))

/-- Whether `pre` is an initial segment of `l` (used for substring search). -/
def leadsWith : List Char → List Char → Bool
  | [], _ => true
  | _ :: _, [] => false
  | a :: as, b :: bs => a == b && leadsWith as bs

/-- Substring occurrence on character lists. -/
def hasSub (sub : List Char) : List Char → Bool
  | [] => leadsWith sub []
  | c :: rest => leadsWith sub (c :: rest) || hasSub sub rest

/-- Python `sub in s` on strings. -/
def pyIn (sub s : String) : Bool :=
  hasSub sub.toList s.toList

/-- Python `str.lower()` (ASCII case mapping; all inputs here are ASCII). -/
def pyLower (s : String) : String :=
  String.mk (s.toList.map Char.toLower)

/-- Python `str.title()`: a letter that follows a non-letter starts a word and
is upper-cased; letters inside a word are lower-cased. -/
def pyTitleGo (prevAlpha : Bool) : List Char → List Char
  | [] => []
  | c :: cs =>
    if c.isAlpha then
      (if prevAlpha then c.toLower else c.toUpper) :: pyTitleGo true cs
    else
      c :: pyTitleGo false cs

/-- Python `str.title()`. -/
def pyTitle (s : String) : String :=
  String.mk (pyTitleGo false s.toList)

/-- Concatenation of `f` applied to each list element (helper for renderings). -/
def catMap (f : String → String) : List String → String
  | [] => ""
  | a :: as => f a ++ catMap f as

/-- Normalise a Python slice index against a list length: negative indices
count from the end and everything is clamped into `[0, len]`. -/
def pyNorm (i : Int) (len : Nat) : Nat :=
  if i < 0 then (i + len).toNat else min i.toNat len

/-- Python `l[a:b]` for integer bounds. -/
def pySliceII (l : List α) (a b : Int) : List α :=
  (l.take (pyNorm b l.length)).drop (pyNorm a l.length)

/-- Python `l[a:]`. -/
def pySliceFromI (l : List α) (a : Int) : List α :=
  l.drop (pyNorm a l.length)

/-- Python `l[:b]`. -/
def pySliceToI (l : List α) (b : Int) : List α :=
  l.take (pyNorm b l.length)

/-- Worker for `pySplitChar`: accumulate the current piece (reversed). -/
def pySplitCharGo (sep : Char) (cur : List Char) : List Char → List String
  | [] => [String.mk cur.reverse]
  | c :: cs =>
    if c = sep then String.mk cur.reverse :: pySplitCharGo sep [] cs
    else pySplitCharGo sep (c :: cur) cs

/-- Python `str.split(sep)` for a one-character separator: split at every
occurrence, keeping empty pieces (`"".split(sep)` is `[""]`). -/
def pySplitChar (sep : Char) (s : String) : List String :=
  pySplitCharGo sep [] s.toList

/-- Python `str(x)` for an optional-string field: `None` prints as `"None"`
(this is what an f-string interpolation of a `None` field produces). -/
def pyStrOpt : Option String → String
  | none => "None"
  | some s => s

/-! ## The embedded `ast` fragment -/

/-- Expression context of a `Name` node (`ast.Load` / `ast.Store`). -/
inductive PyCtx where
  | load
  | store
deriving DecidableEq

/-- Binary operators appearing in the programs under refactoring. -/
inductive PyBinOp where
  | add
  | sub
  | mult
deriving DecidableEq

/-- Expression nodes (`ast.expr` fragment). `attr` keeps the attribute name as
a plain string field, exactly like `ast.Attribute.attr`. -/
inductive PyExpr where
  | name (id : String) (ctx : PyCtx)
  | intConst (n : Int)
  | binOp (left : PyExpr) (op : PyBinOp) (right : PyExpr)
  | call (func : PyExpr) (args : List PyExpr)
  | attr (value : PyExpr) (attrName : String)

/-- Statement nodes (`ast.stmt` fragment). Function parameters are the `arg`
identifier strings of `node.args.args` (no annotations occur in the sources
the engine is applied to). -/
inductive PyStmt where
  | functionDef (name : String) (params : List String) (body : List PyStmt)
  | classDef (name : String) (body : List PyStmt)
  | ret (value : Option PyExpr)
  | assign (targets : List PyExpr) (value : PyExpr)
  | exprStmt (value : PyExpr)
  | pass

/-- A module (`ast.Module`). -/
structure PyModule where
  body : List PyStmt

/-! ## `ast.unparse` for the fragment

CPython's `ast._Unparser` writes a newline before every statement except the
first, writes one extra (blank) line before a function or class definition
whenever output already exists, indents blocks by four spaces, and
parenthesises a `BinOp` operand exactly when its operator binds less tightly
than required by the context (`+`/`-` below `*`; the right operand of a
left-associative operator requires one level more).  Verified against
CPython 3.11 `ast.unparse` on the shapes appearing in the theorems below. -/

/-- Rendered operator token. -/
def opStr : PyBinOp → String
  | .add => "+"
  | .sub => "-"
  | .mult => "*"

/-- Precedence level of a binary operator (`+`/`-` lower than `*`). -/
def opLevel : PyBinOp → Nat
  | .add => 1
  | .sub => 1
  | .mult => 2

/-- Comma-separated join. -/
def joinComma (l : List String) : String :=
  String.intercalate ", " l

mutual

/-- Render an expression; `lvl` is the minimum operator level that may appear
unparenthesised in this position. -/
def unparseExpr (lvl : Nat) : PyExpr → String
  | .name id _ => id
  | .intConst n => toString n
  | .binOp l op r =>
    let mylvl := opLevel op
    let s := unparseExpr mylvl l ++ " " ++ opStr op ++ " " ++ unparseExpr (mylvl + 1) r
    if mylvl < lvl then "(" ++ s ++ ")" else s
  | .call f args => unparseExpr 3 f ++ "(" ++ joinComma (unparseExprList args) ++ ")"
  | .attr v a => unparseExpr 3 v ++ "." ++ a

/-- Render a list of expressions (call arguments). -/
def unparseExprList : List PyExpr → List String
  | [] => []
  | e :: es => unparseExpr 0 e :: unparseExprList es

end

/-- Indentation: four spaces per block level. -/
def indentStr (n : Nat) : String :=
  String.mk (List.replicate (4 * n) ' ')

/-- Separator before a plain statement: a newline unless output is empty. -/
def sepStmt (acc : String) : String :=
  if acc.isEmpty then "" else "\n"

/-- Separator before a function/class definition: newline plus blank line
unless output is empty. -/
def sepDef (acc : String) : String :=
  if acc.isEmpty then "" else "\n\n"

mutual

/-- Append the rendering of one statement to the output accumulated so far. -/
def unparseStmt (ind : Nat) (acc : String) : PyStmt → String
  | .functionDef n ps body =>
    unparseStmtList (ind + 1)
      (acc ++ sepDef acc ++ indentStr ind ++ "def " ++ n ++ "(" ++ joinComma ps ++ "):") body
  | .classDef n body =>
    unparseStmtList (ind + 1)
      (acc ++ sepDef acc ++ indentStr ind ++ "class " ++ n ++ ":") body
  | .ret v =>
    acc ++ sepStmt acc ++ indentStr ind ++
      (match v with
       | none => "return"
       | some e => "return " ++ unparseExpr 0 e)
  | .assign ts v =>
    acc ++ sepStmt acc ++ indentStr ind ++
      String.intercalate " = " (unparseExprList ts ++ [unparseExpr 0 v])
  | .exprStmt e =>
    acc ++ sepStmt acc ++ indentStr ind ++ unparseExpr 0 e
  | .pass =>
    acc ++ sepStmt acc ++ indentStr ind ++ "pass"

/-- Append the renderings of a statement list to the accumulated output. -/
def unparseStmtList (ind : Nat) (acc : String) : List PyStmt → String
  | [] => acc
  | s :: ss => unparseStmtList ind (unparseStmt ind acc s) ss

end

/-- Embedded `ast.unparse` on a module. -/
def unparse (m : PyModule) : String :=
  unparseStmtList 0 "" m.body

/-! ## Engine data model (`refactoring_engine.py`) -/

/-- The `RefactoringOperation` dataclass: every field other than `type`
defaults to `None`. -/
structure RefactoringOperation where
  type : String
  target : Option String := none
  start_line : Option Int := none
  end_line : Option Int := none
  new_method_name : Option String := none
  old_name : Option String := none
  new_name : Option String := none
  variable_name : Option String := none
  function_name : Option String := none
  method_name : Option String := none
  source_class : Option String := none
  target_class : Option String := none
  dead_functions : Option (List String) := none

/-- The fixed list `RefactoringEngine.supported_operations`. -/
def supported_operations : List String :=
  ["extract_method", "rename_variable", "rename_function", "inline_variable",
   "inline_function", "move_method", "remove_dead_code"]

/-- Exceptions the engine can raise: `NotImplementedError` from the dispatch
guard, `TypeError`/`IndexError` from degenerate operand shapes, and a
propagated `SyntaxError` from `ast.parse`. -/
inductive EngineExc where
  | notImplementedError (msg : String)
  | typeError
  | indexError
  | syntaxError
deriving DecidableEq

/-! ## `_rename_variable`

`VariableRenamer` overrides `visit_Name` (rename the id when it equals
`old_name`; a `Name` has no AST children so not calling `generic_visit` loses
nothing) and `visit_arg` (rename the parameter).  All other nodes take the
default `generic_visit` recursion. -/

mutual

/-- Expression part of the `VariableRenamer` traversal. -/
def renameVarExpr (old new : String) : PyExpr → PyExpr
  | .name id ctx => .name (if id = old then new else id) ctx
  | .intConst n => .intConst n
  | .binOp l op r => .binOp (renameVarExpr old new l) op (renameVarExpr old new r)
  | .call f args => .call (renameVarExpr old new f) (renameVarExprList old new args)
  | .attr v a => .attr (renameVarExpr old new v) a

/-- List version of `renameVarExpr`. -/
def renameVarExprList (old new : String) : List PyExpr → List PyExpr
  | [] => []
  | e :: es => renameVarExpr old new e :: renameVarExprList old new es

end

/-- The `visit_arg` override applied to a parameter list. -/
def renameParams (old new : String) (ps : List String) : List String :=
  ps.map fun p => if p = old then new else p

mutual

/-- Statement part of the `VariableRenamer` traversal. -/
def renameVarStmt (old new : String) : PyStmt → PyStmt
  | .functionDef n ps body =>
    .functionDef n (renameParams old new ps) (renameVarStmtList old new body)
  | .classDef n body => .classDef n (renameVarStmtList old new body)
  | .ret v => .ret (v.map (renameVarExpr old new))
  | .assign ts v => .assign (renameVarExprList old new ts) (renameVarExpr old new v)
  | .exprStmt e => .exprStmt (renameVarExpr old new e)
  | .pass => .pass

/-- List version of `renameVarStmt`. -/
def renameVarStmtList (old new : String) : List PyStmt → List PyStmt
  | [] => []
  | s :: ss => renameVarStmt old new s :: renameVarStmtList old new ss

end

/-- `RefactoringEngine._rename_variable` at tree level. -/
def rename_variable (old new : String) (m : PyModule) : PyModule :=
  ⟨renameVarStmtList old new m.body⟩

/-! ## `_rename_function`

`FunctionRenamer` overrides `visit_FunctionDef` (rename the declaration when
its name matches, then `generic_visit`) and `visit_Call` (rewrite `func.id`
only when `func` is a bare `ast.Name` equal to `old_name`, then
`generic_visit`).  Bare `Name` references outside call position are never
touched, and an `Attribute` callee is left alone. -/

mutual

/-- Expression part of the `FunctionRenamer` traversal. -/
def renameFunExpr (old new : String) : PyExpr → PyExpr
  | .name id ctx => .name id ctx
  | .intConst n => .intConst n
  | .binOp l op r => .binOp (renameFunExpr old new l) op (renameFunExpr old new r)
  | .call f args =>
    match f with
    | .name fid fctx =>
      .call (.name (if fid = old then new else fid) fctx) (renameFunExprList old new args)
    | _ => .call (renameFunExpr old new f) (renameFunExprList old new args)
  | .attr v a => .attr (renameFunExpr old new v) a

/-- List version of `renameFunExpr`. -/
def renameFunExprList (old new : String) : List PyExpr → List PyExpr
  | [] => []
  | e :: es => renameFunExpr old new e :: renameFunExprList old new es

end

mutual

/-- Statement part of the `FunctionRenamer` traversal. -/
def renameFunStmt (old new : String) : PyStmt → PyStmt
  | .functionDef n ps body =>
    .functionDef (if n = old then new else n) ps (renameFunStmtList old new body)
  | .classDef n body => .classDef n (renameFunStmtList old new body)
  | .ret v => .ret (v.map (renameFunExpr old new))
  | .assign ts v => .assign (renameFunExprList old new ts) (renameFunExpr old new v)
  | .exprStmt e => .exprStmt (renameFunExpr old new e)
  | .pass => .pass

/-- List version of `renameFunStmt`. -/
def renameFunStmtList (old new : String) : List PyStmt → List PyStmt
  | [] => []
  | s :: ss => renameFunStmt old new s :: renameFunStmtList old new ss

end

/-- `RefactoringEngine._rename_function` at tree level. -/
def rename_function (old new : String) (m : PyModule) : PyModule :=
  ⟨renameFunStmtList old new m.body⟩

/-! ## `_inline_variable`

`VariableInliner` carries mutable state `value_node` / `found_assignment`.
`visit_Assign` deletes the first single-target assignment `v = e` (capturing
`e` unvisited); other assignments take `generic_visit`.  `visit_Name`
substitutes the captured expression at a `Load` occurrence of `v` once the
state is set.  The state threads through the depth-first traversal, i.e. in
program order. -/

/-- Visitor state of `VariableInliner`. -/
structure IVState where
  value_node : Option PyExpr
  found_assignment : Bool

mutual

/-- Expression part of the `VariableInliner` traversal (the state is only
read, never written, inside expressions). -/
def inlineVarExpr (v : String) (st : IVState) : PyExpr → PyExpr
  | .name id ctx =>
    match st.value_node with
    | some w => if id = v ∧ ctx = .load then w else .name id ctx
    | none => .name id ctx
  | .intConst n => .intConst n
  | .binOp l op r => .binOp (inlineVarExpr v st l) op (inlineVarExpr v st r)
  | .call f args => .call (inlineVarExpr v st f) (inlineVarExprList v st args)
  | .attr e a => .attr (inlineVarExpr v st e) a

/-- List version of `inlineVarExpr`. -/
def inlineVarExprList (v : String) (st : IVState) : List PyExpr → List PyExpr
  | [] => []
  | e :: es => inlineVarExpr v st e :: inlineVarExprList v st es

end

/-- The `visit_Assign` guard: exactly one target, which is a bare `Name`
equal to the variable being inlined. -/
def singleTargetIs (v : String) : List PyExpr → Bool
  | [.name tid _] => tid = v
  | _ => false

mutual

/-- Statement part of the `VariableInliner` traversal; returns `none` when the
statement is deleted, together with the updated state. -/
def inlineVarStmt (v : String) (st : IVState) : PyStmt → Option PyStmt × IVState
  | .assign ts val =>
    if singleTargetIs v ts ∧ st.found_assignment = false then
      (none, ⟨some val, true⟩)
    else
      (some (.assign (inlineVarExprList v st ts) (inlineVarExpr v st val)), st)
  | .functionDef n ps body =>
    let r := inlineVarStmtList v st body
    (some (.functionDef n ps r.1), r.2)
  | .classDef n body =>
    let r := inlineVarStmtList v st body
    (some (.classDef n r.1), r.2)
  | .ret val => (some (.ret (val.map (inlineVarExpr v st))), st)
  | .exprStmt e => (some (.exprStmt (inlineVarExpr v st e)), st)
  | .pass => (some .pass, st)

/-- List version of `inlineVarStmt`, threading the state left to right and
dropping deleted statements. -/
def inlineVarStmtList (v : String) (st : IVState) : List PyStmt → List PyStmt × IVState
  | [] => ([], st)
  | s :: ss =>
    let r := inlineVarStmt v st s
    let rs := inlineVarStmtList v r.2 ss
    (match r.1 with
     | some s1 => s1 :: rs.1
     | none => rs.1, rs.2)

end

/-- `RefactoringEngine._inline_variable` at tree level. -/
def inline_variable (v : String) (m : PyModule) : PyModule :=
  ⟨(inlineVarStmtList v ⟨none, false⟩ m.body).1⟩

/-! ## `_inline_function`

`FunctionInliner` carries `body_node` and `params`.  `visit_FunctionDef` on a
matching definition records `node.body[0].value` when the first body statement
is a `Return` (otherwise `body_node` keeps its previous value), always records
the parameter names, and deletes the definition without recursing into it.
`visit_Call` on a call whose callee is the bare matching name, once
`body_node` is set, substitutes the two call arguments into the left/right
operand slots when the stored body is a `BinOp` and the call passes exactly
two arguments — mutating the SHARED stored node in place (the code's comment
says "Create a copy of the body node" but no copy is made), so the updated
node is also what later call sites receive — and returns the stored node,
replacing the call.  `self.params.index(...)` can exceed the argument list
length, which raises `IndexError` in Python and is modelled as an error. -/

/-- Visitor state of `FunctionInliner`. -/
structure IFState where
  body_node : Option PyExpr
  params : List String

/-- Python `list.index` (first index of an element known to be present). -/
def pyIndex : List String → String → Nat
  | [], _ => 0
  | a :: as, x => if a = x then 0 else pyIndex as x + 1

/-- Python `list[i]` with `IndexError` on overflow. -/
def pyGetItem (l : List PyExpr) (i : Nat) : Except EngineExc PyExpr :=
  match l.get? i with
  | some a => .ok a
  | none => .error .indexError

/-- Operand substitution of `FunctionInliner.visit_Call`: a bare `Name` operand
that is one of the recorded parameters is replaced by the call argument at the
parameter's position. -/
def substOperand (st : IFState) (args : List PyExpr) (x : PyExpr) :
    Except EngineExc PyExpr :=
  match x with
  | .name xid xctx =>
    if st.params.contains xid then pyGetItem args (pyIndex st.params xid)
    else .ok (.name xid xctx)
  | e => .ok e

mutual

/-- Expression part of the `FunctionInliner` traversal. -/
def inlineFunExpr (fname : String) (st : IFState) :
    PyExpr → Except EngineExc (PyExpr × IFState)
  | .call f args =>
    (match f, st.body_node with
     | .name fid _, some r =>
       if fid = fname then
         match r with
         | .binOp l op rr =>
           if args.length = 2 then do
             let lnew ← substOperand st args l
             let rnew ← substOperand st args rr
             let res := PyExpr.binOp lnew op rnew
             -- the in-place mutation of the shared body node: the state now
             -- holds the substituted expression
             .ok (res, { st with body_node := some res })
           else .ok (r, st)
         | _ => .ok (r, st)
       else do
         let fr ← inlineFunExpr fname st f
         let ar ← inlineFunExprList fname fr.2 args
         .ok (.call fr.1 ar.1, ar.2)
     | _, _ => do
       let fr ← inlineFunExpr fname st f
       let ar ← inlineFunExprList fname fr.2 args
       .ok (.call fr.1 ar.1, ar.2))
  | .name id ctx => .ok (.name id ctx, st)
  | .intConst n => .ok (.intConst n, st)
  | .binOp l op r => do
    let lr ← inlineFunExpr fname st l
    let rr ← inlineFunExpr fname lr.2 r
    .ok (.binOp lr.1 op rr.1, rr.2)
  | .attr v a => do
    let vr ← inlineFunExpr fname st v
    .ok (.attr vr.1 a, vr.2)

/-- List version of `inlineFunExpr`. -/
def inlineFunExprList (fname : String) (st : IFState) :
    List PyExpr → Except EngineExc (List PyExpr × IFState)
  | [] => .ok ([], st)
  | e :: es => do
    let r ← inlineFunExpr fname st e
    let rs ← inlineFunExprList fname r.2 es
    .ok (r.1 :: rs.1, rs.2)

end

mutual

/-- Statement part of the `FunctionInliner` traversal. -/
def inlineFunStmt (fname : String) (st : IFState) :
    PyStmt → Except EngineExc (Option PyStmt × IFState)
  | .functionDef n ps body =>
    if n = fname then
      -- body_node is only reassigned when the first body statement is a
      -- Return; params are always reassigned; the definition is deleted
      .ok (none,
        ⟨(match body with
          | .ret v :: _ => v
          | _ => st.body_node), ps⟩)
    else do
      let r ← inlineFunStmtList fname st body
      .ok (some (.functionDef n ps r.1), r.2)
  | .classDef n body => do
    let r ← inlineFunStmtList fname st body
    .ok (some (.classDef n r.1), r.2)
  | .ret val =>
    match val with
    | some e => do
      let r ← inlineFunExpr fname st e
      .ok (some (.ret (some r.1)), r.2)
    | none => .ok (some (.ret none), st)
  | .assign ts v => do
    let tr ← inlineFunExprList fname st ts
    let vr ← inlineFunExpr fname tr.2 v
    .ok (some (.assign tr.1 vr.1), vr.2)
  | .exprStmt e => do
    let r ← inlineFunExpr fname st e
    .ok (some (.exprStmt r.1), r.2)
  | .pass => .ok (some .pass, st)

/-- List version of `inlineFunStmt`. -/
def inlineFunStmtList (fname : String) (st : IFState) :
    List PyStmt → Except EngineExc (List PyStmt × IFState)
  | [] => .ok ([], st)
  | s :: ss => do
    let r ← inlineFunStmt fname st s
    let rs ← inlineFunStmtList fname r.2 ss
    .ok ((match r.1 with
          | some s1 => s1 :: rs.1
          | none => rs.1), rs.2)

end

/-- `RefactoringEngine._inline_function` at tree level. -/
def inline_function (fname : String) (m : PyModule) :
    Except EngineExc PyModule := do
  let r ← inlineFunStmtList fname ⟨none, []⟩ m.body
  .ok ⟨r.1⟩

/-! ## `_move_method`

`MethodMover.visit_ClassDef` strips every method named `method_name` out of
the source class (remembering the last one) and appends the remembered method
to the target class.  The code's `if node.body == [ast.Pass()]` placeholder
check compares a fresh `ast.Pass()` object against the existing statements;
`ast.AST` does not define `__eq__`, so the comparison is object identity and
is always `False` — the branch that would REPLACE the placeholder never runs
and the method is always appended.  `visit_ClassDef` returns without
`generic_visit`, so nothing inside a class body is traversed further. -/

/-- Remove every method named `mName` from a class body, remembering the last
one removed (`self.method_to_move = item` runs once per match). -/
def stripMethod (mName : Option String) (st : Option PyStmt) :
    List PyStmt → List PyStmt × Option PyStmt
  | [] => ([], st)
  | item :: rest =>
    match item with
    | .functionDef n ps b =>
      if mName = some n then
        stripMethod mName (some (.functionDef n ps b)) rest
      else
        let r := stripMethod mName st rest
        (.functionDef n ps b :: r.1, r.2)
    | s =>
      let r := stripMethod mName st rest
      (s :: r.1, r.2)

mutual

/-- Statement part of the `MethodMover` traversal. -/
def moveStmt (srcC tgtC mName : Option String) (st : Option PyStmt) :
    PyStmt → PyStmt × Option PyStmt
  | .classDef n body =>
    if srcC = some n then
      let r := stripMethod mName st body
      (.classDef n r.1, r.2)
    else if tgtC = some n then
      match st with
      | some m =>
        -- node.body == [ast.Pass()] is identity comparison on fresh objects,
        -- always False: the append branch is taken unconditionally
        (.classDef n (body ++ [m]), st)
      | none => (.classDef n body, st)
    else (.classDef n body, st)
  | .functionDef n ps body =>
    let r := moveStmtList srcC tgtC mName st body
    (.functionDef n ps r.1, r.2)
  | .ret v => (.ret v, st)
  | .assign ts v => (.assign ts v, st)
  | .exprStmt e => (.exprStmt e, st)
  | .pass => (.pass, st)

/-- List version of `moveStmt`. -/
def moveStmtList (srcC tgtC mName : Option String) (st : Option PyStmt) :
    List PyStmt → List PyStmt × Option PyStmt
  | [] => ([], st)
  | s :: ss =>
    let r := moveStmt srcC tgtC mName st s
    let rs := moveStmtList srcC tgtC mName r.2 ss
    (r.1 :: rs.1, rs.2)

end

/-- `RefactoringEngine._move_method` at tree level. -/
def move_method (srcC tgtC mName : Option String) (m : PyModule) : PyModule :=
  ⟨(moveStmtList srcC tgtC mName none m.body).1⟩

/-! ## `_remove_dead_code`

`DeadCodeRemover.visit_FunctionDef` deletes a definition whose name is in the
list and returns the node WITHOUT `generic_visit` otherwise, so functions
nested in kept functions are not visited; class bodies take the default
recursion. -/

mutual

/-- Statement part of the `DeadCodeRemover` traversal. -/
def removeDeadStmt (deads : List String) : PyStmt → Option PyStmt
  | .functionDef n ps body =>
    if deads.contains n then none else some (.functionDef n ps body)
  | .classDef n body => some (.classDef n (removeDeadStmtList deads body))
  | .ret v => some (.ret v)
  | .assign ts v => some (.assign ts v)
  | .exprStmt e => some (.exprStmt e)
  | .pass => some .pass

/-- List version of `removeDeadStmt`. -/
def removeDeadStmtList (deads : List String) : List PyStmt → List PyStmt
  | [] => []
  | s :: ss =>
    match removeDeadStmt deads s with
    | some s1 => s1 :: removeDeadStmtList deads ss
    | none => removeDeadStmtList deads ss

end

/-- `RefactoringEngine._remove_dead_code` at tree level. -/
def remove_dead_code (deads : List String) (m : PyModule) : PyModule :=
  ⟨removeDeadStmtList deads m.body⟩

/-! ## `_extract_method` (pure string manipulation, no parsing) -/

/-- `RefactoringEngine._extract_method`: slice the lines
`[start_line - 1 : end_line]`, strip each and re-indent it by four spaces
under a fixed-signature definition, append the fixed `return`, and replace the
original range by the fixed call line.  `start_line = None` raises `TypeError`
at `operation.start_line - 1`; `end_line = None` makes both slices open-ended
(`lines[x:None]` / `lines[None:]` are legal Python). -/
def extract_method (code : String) (op : RefactoringOperation) :
    Except EngineExc String :=
  match op.start_line with
  | none => .error .typeError
  | some sl =>
    let lines := pySplitChar '\n' code
    let extracted :=
      match op.end_line with
      | some el => pySliceII lines (sl - 1) el
      | none => pySliceFromI lines (sl - 1)
    let methodDef :=
      extracted.foldl (fun acc line => acc ++ "\n    " ++ pyStrip line)
        ("def " ++ pyStrOpt op.new_method_name ++ "(item_price):")
    let methodDef := methodDef ++ "\n    return discounted_price\n"
    let callLine :=
      "            discounted_price = " ++ pyStrOpt op.new_method_name ++ "(item.price)"
    let newLines :=
      pySliceToI lines (sl - 1) ++ [callLine] ++
        (match op.end_line with
         | some el => pySliceFromI lines el
         | none => lines)
    .ok (methodDef ++ "\n" ++ String.intercalate "\n" newLines)

/-- Membership of a string in a list (explicit recursion, mirroring the
`visit_arg` comparisons over the parameter list). -/
def strHas (x : String) : List String → Bool
  | [] => false
  | p :: ps => p = x || strHas x ps

/-! ## Occurrence checkers

Used for two purposes: the hypothesis of the rename round-trip property ("the
source contains no occurrence of `new_name`"), and the faithful modelling of
the `ast.unparse` crash that a rename with `new_name = None` would hit (the
renamer writes `None` into an identifier slot; `unparse` then fails with
`TypeError` — this happens exactly when some node matched `old_name`). -/

mutual

/-- Whether `x` occurs as any identifier (a `Name` id or an attribute name)
in an expression. -/
def occursExpr (x : String) : PyExpr → Bool
  | .name id _ => id = x
  | .intConst _ => false
  | .binOp l _ r => occursExpr x l || occursExpr x r
  | .call f args => occursExpr x f || occursExprList x args
  | .attr v a => a = x || occursExpr x v

/-- List version of `occursExpr`. -/
def occursExprList (x : String) : List PyExpr → Bool
  | [] => false
  | e :: es => occursExpr x e || occursExprList x es

end

mutual

/-- Whether `x` occurs as any identifier (definition name, class name,
parameter, `Name` id or attribute name) in a statement. -/
def occursStmt (x : String) : PyStmt → Bool
  | .functionDef n ps body =>
    n = x || strHas x ps || occursStmtList x body
  | .classDef n body => n = x || occursStmtList x body
  | .ret v =>
    match v with
    | some e => occursExpr x e
    | none => false
  | .assign ts v => occursExprList x ts || occursExpr x v
  | .exprStmt e => occursExpr x e
  | .pass => false

/-- List version of `occursStmt`. -/
def occursStmtList (x : String) : List PyStmt → Bool
  | [] => false
  | s :: ss => occursStmt x s || occursStmtList x ss

end

/-- Whether `x` occurs as any identifier in a module. -/
def occursMod (x : String) (m : PyModule) : Bool :=
  occursStmtList x m.body

mutual

/-- Whether `VariableRenamer` would rewrite anything: some `Name` id or some
parameter equals `old` (expression part). -/
def varHitExpr (old : String) : PyExpr → Bool
  | .name id _ => id = old
  | .intConst _ => false
  | .binOp l _ r => varHitExpr old l || varHitExpr old r
  | .call f args => varHitExpr old f || varHitExprList old args
  | .attr v _ => varHitExpr old v

/-- List version of `varHitExpr`. -/
def varHitExprList (old : String) : List PyExpr → Bool
  | [] => false
  | e :: es => varHitExpr old e || varHitExprList old es

end

mutual

/-- Whether `VariableRenamer` would rewrite anything (statement part). -/
def varHitStmt (old : String) : PyStmt → Bool
  | .functionDef _ ps body => strHas old ps || varHitStmtList old body
  | .classDef _ body => varHitStmtList old body
  | .ret v =>
    match v with
    | some e => varHitExpr old e
    | none => false
  | .assign ts v => varHitExprList old ts || varHitExpr old v
  | .exprStmt e => varHitExpr old e
  | .pass => false

/-- List version of `varHitStmt`. -/
def varHitStmtList (old : String) : List PyStmt → Bool
  | [] => false
  | s :: ss => varHitStmt old s || varHitStmtList old ss

end

mutual

/-- Whether `FunctionRenamer` would rewrite anything: a definition named `old`
or a call with bare callee `old` (expression part). -/
def funHitExpr (old : String) : PyExpr → Bool
  | .name _ _ => false
  | .intConst _ => false
  | .binOp l _ r => funHitExpr old l || funHitExpr old r
  | .call f args =>
    (match f with
     | .name fid _ => fid = old
     | _ => funHitExpr old f) || funHitExprList old args
  | .attr v _ => funHitExpr old v

/-- List version of `funHitExpr`. -/
def funHitExprList (old : String) : List PyExpr → Bool
  | [] => false
  | e :: es => funHitExpr old e || funHitExprList old es

end

mutual

/-- Whether `FunctionRenamer` would rewrite anything (statement part). -/
def funHitStmt (old : String) : PyStmt → Bool
  | .functionDef n _ body => n = old || funHitStmtList old body
  | .classDef _ body => funHitStmtList old body
  | .ret v =>
    match v with
    | some e => funHitExpr old e
    | none => false
  | .assign ts v => funHitExprList old ts || funHitExpr old v
  | .exprStmt e => funHitExpr old e
  | .pass => false

/-- List version of `funHitStmt`. -/
def funHitStmtList (old : String) : List PyStmt → Bool
  | [] => false
  | s :: ss => funHitStmt old s || funHitStmtList old ss

end

/-- Whether `DeadCodeRemover.visit_FunctionDef` is invoked at all: a function
definition at module level or (recursively) inside a class body.  With
`dead_functions = None` the first such visit raises `TypeError`
(`node.name in None`). -/
def visitsFunDef : List PyStmt → Bool
  | [] => false
  | .functionDef _ _ _ :: _ => true
  | .classDef _ body :: ss => visitsFunDef body || visitsFunDef ss
  | _ :: ss => visitsFunDef ss

/-! ## `apply_refactoring`

The dispatcher checks membership in `supported_operations` FIRST and raises
`NotImplementedError` for anything else; each tree-based handler then forces
the `ast.parse` result (modelled as an `Except` value supplied alongside the
raw text), while `_extract_method` works on the raw text only and never
parses.  The `Option`-typed operation fields reproduce Python `None`
semantics: a `None` name never equals a node's string field, and a rename
that does match with `new_name = None` writes `None` into the tree, which
makes `ast.unparse` fail (`TypeError`).  If the type is in the supported list
but matches no `elif` arm, Python falls off the chain and returns `None`:
the result type is therefore `Option String`.  This is unreachable because
the seven arms cover the list, but the model keeps the fall-through. -/

def apply_refactoring (code : String) (parsed : Except EngineExc PyModule)
    (op : RefactoringOperation) : Except EngineExc (Option String) :=
  if supported_operations.contains op.type = false then
    .error (.notImplementedError ("Operation " ++ op.type ++ " not supported"))
  else if op.type = "extract_method" then do
    let r ← extract_method code op
    .ok (some r)
  else if op.type = "rename_variable" then do
    let t ← parsed
    match op.old_name with
    | none => .ok (some (unparse t))
    | some o =>
      match op.new_name with
      | some n => .ok (some (unparse (rename_variable o n t)))
      | none =>
        if varHitStmtList o t.body then .error .typeError
        else .ok (some (unparse t))
  else if op.type = "rename_function" then do
    let t ← parsed
    match op.old_name with
    | none => .ok (some (unparse t))
    | some o =>
      match op.new_name with
      | some n => .ok (some (unparse (rename_function o n t)))
      | none =>
        if funHitStmtList o t.body then .error .typeError
        else .ok (some (unparse t))
  else if op.type = "inline_variable" then do
    let t ← parsed
    match op.variable_name with
    | none => .ok (some (unparse t))
    | some v => .ok (some (unparse (inline_variable v t)))
  else if op.type = "inline_function" then do
    let t ← parsed
    match op.function_name with
    | none => .ok (some (unparse t))
    | some f => do
      let t1 ← inline_function f t
      .ok (some (unparse t1))
  else if op.type = "move_method" then do
    let t ← parsed
    .ok (some (unparse (move_method op.source_class op.target_class op.method_name t)))
  else if op.type = "remove_dead_code" then do
    let t ← parsed
    match op.dead_functions with
    | none =>
      if visitsFunDef t.body then .error .typeError else .ok (some (unparse t))
    | some deads => .ok (some (unparse (remove_dead_code deads t)))
  else
    .ok none

/-! ## Prompt-processor data model (`prompt_processor.py`) -/

/-- The `RefactoringRequest` dataclass. -/
structure RefactoringRequest where
  operation_type : String
  method_name : Option String := none
  start_line : Option Int := none
  end_line : Option Int := none
  old_name : Option String := none
  new_name : Option String := none
  variable_name : Option String := none
  function_name : Option String := none
  source_class : Option String := none
  target_class : Option String := none
  dead_functions : Option (List String) := none
deriving DecidableEq

/-- Exceptions raised by `parse_prompt`: `ValueError` (the ambiguity guard,
the final unparsable-prompt failure, and `int()` on a non-numeric literal) and
`NotImplementedError` (the language-conversion guard).  These are exactly the
two classes `validate_prompt` catches. -/
inductive PromptExc where
  | valueError (msg : String)
  | notImplementedError (msg : String)
deriving DecidableEq

/-! ## A regular-expression engine mirroring `re.search`

The pattern catalog uses literals, the classes `\d` `\w` `\s` `[-\s]` `["\']`
and `.`, greedy `*` `+` `?`, alternation, and (non-)capturing groups.  The
engine below is a backtracking matcher with Python's preference order:
alternatives left to right, greedy quantifiers longest first, `re.search`
leftmost start position first; a group records the characters its last
completed match consumed.  `*` is implemented with a progress requirement
(an iteration must consume at least one character); every starred
subexpression in the catalog consumes at least one character per iteration,
so this agrees with `re` on these patterns.  Fuel bounds star iterations by
the input length. -/

/-- Single-character matchers (literal characters and the classes used in the
catalog).  Matching is case-insensitive when `ci` is set (`re.IGNORECASE`). -/
inductive CharPat where
  | lit (c : Char)
  | digit
  | wordc
  | space
  | dashSpace
  | quoteMark
  | anychar

/-- Whether character `c` satisfies a single-character matcher. -/
def charHit (ci : Bool) (p : CharPat) (c : Char) : Bool :=
  match p with
  | .lit d => c == d || (ci && (c.toLower == d.toLower))
  | .digit => c.isDigit
  | .wordc => c.isAlphanum || c == '_'
  | .space => pySpaceChar c
  | .dashSpace => c == '-' || pySpaceChar c
  | .quoteMark => c == Char.ofNat 34 || c == Char.ofNat 39
  | .anychar => !(c == '\n')

/-- Regular expressions over `CharPat` (star is greedy; `alt` prefers the
left branch; `grp i` is capture group number `i`). -/
inductive Re where
  | eps
  | ch (p : CharPat)
  | seq (a b : Re)
  | alt (a b : Re)
  | star (a : Re)
  | grp (i : Nat) (a : Re)

/-- Captured groups: group number paired with the captured text; the most
recent completed capture of a group shadows earlier ones. -/
def Caps := List (Nat × String)

/-- Record a capture. -/
def setCap (caps : Caps) (i : Nat) (s : String) : Caps :=
  (i, s) :: caps

/-- Read the latest capture of group `i`, `none` if the group never matched. -/
def getCap (caps : Caps) (i : Nat) : Option String :=
  match caps with
  | [] => none
  | (j, s) :: rest => if j = i then some s else getCap rest i

/-- One fuel level of the backtracking matcher, in continuation-passing style:
match the regex against a front segment of the input, extend the captures, and
call the continuation `k` on every candidate remainder in Python's preference
order (alternatives left first, greedy stars longest first) until `k`
succeeds.  A `star` first tries one more iteration of its body (which must
consume at least one character) and continues the iteration through
`starIter`, which re-enters the matcher one fuel level lower; it falls back to
matching empty. -/
def reMGo (ci : Bool)
    (starIter : Re → List Char → Caps → (List Char → Caps → Option Caps) → Option Caps) :
    Re → List Char → Caps → (List Char → Caps → Option Caps) → Option Caps
  | .eps, s, caps, k => k s caps
  | .ch p, s, caps, k =>
    match s with
    | [] => none
    | c :: rest => if charHit ci p c then k rest caps else none
  | .seq a b, s, caps, k =>
    reMGo ci starIter a s caps (fun s1 caps1 => reMGo ci starIter b s1 caps1 k)
  | .alt a b, s, caps, k =>
    match reMGo ci starIter a s caps k with
    | some r => some r
    | none => reMGo ci starIter b s caps k
  | .grp i a, s, caps, k =>
    reMGo ci starIter a s caps
      (fun s1 caps1 => k s1 (setCap caps1 i (String.mk (s.take (s.length - s1.length)))))
  | .star a, s, caps, k =>
    match reMGo ci starIter a s caps
        (fun s1 caps1 =>
          if s1.length < s.length then starIter a s1 caps1 k else none) with
    | some r => some r
    | none => k s caps

/-- Fuelled matcher: the fuel bounds the number of star iterations (each
iteration consumes at least one character, so input length plus one suffices
for a complete search). -/
def reM (ci : Bool) : Nat → Re → List Char → Caps →
    (List Char → Caps → Option Caps) → Option Caps
  | 0 => reMGo ci (fun _ _ _ _ => none)
  | f + 1 => reMGo ci (fun a s caps k => reM ci f (.star a) s caps k)

/-- `re.search`: try an anchored match at each start position, leftmost
first (including the position at the end of the string). -/
def reSearchList (ci : Bool) (r : Re) : List Char → Option Caps
  | [] => reM ci 1 r [] [] (fun _ caps => some caps)
  | c :: rest =>
    match reM ci (rest.length + 2) r (c :: rest) [] (fun _ caps => some caps) with
    | some caps => some caps
    | none => reSearchList ci r rest

/-- A catalog pattern: the regex plus its number of capture groups (used to
build the `match.groups()` tuple). -/
structure RePat where
  re : Re
  ngroups : Nat

/-- `match.groups()` after a successful `re.search`, `none` on no match. -/
def reGroups (ci : Bool) (p : RePat) (s : String) : Option (List (Option String)) :=
  (reSearchList ci p.re s.toList).map
    (fun caps => (List.range p.ngroups).map (fun i => getCap caps (i + 1)))

/-- `match.group(1)` after a successful `re.search`, `none` on no match. -/
def reGroup1 (ci : Bool) (p : RePat) (s : String) : Option String :=
  (reSearchList ci p.re s.toList).bind (fun caps => getCap caps 1)

/-! ### Combinators for transcribing the pattern strings -/

/-- Sequence a list of regexes. -/
def rseqL (l : List Re) : Re :=
  l.foldr .seq .eps

/-- A literal string. -/
def rstr (s : String) : Re :=
  rseqL (s.toList.map (fun c => .ch (.lit c)))

/-- Greedy `e+`. -/
def rplus (r : Re) : Re :=
  .seq r (.star r)

/-- Greedy `e?`. -/
def ropt (r : Re) : Re :=
  .alt r .eps

/-- `.*` (greedy). -/
def rdots : Re :=
  .star (.ch .anychar)

/-- `\s+`. -/
def rsps : Re :=
  rplus (.ch .space)

/-- `(\w+)` as capture group `i`. -/
def rword (i : Nat) : Re :=
  .grp i (rplus (.ch .wordc))

/-- `(\d+)` as capture group `i`. -/
def rdigits (i : Nat) : Re :=
  .grp i (rplus (.ch .digit))

/-- `["\']?`. -/
def rquoteOpt : Re :=
  ropt (.ch .quoteMark)

/-- `lines?\s+` (the literal `line`, an optional `s`, then whitespace). -/
def rlinesWs : Re :=
  rseqL [rstr "line", ropt (.ch (.lit 's')), rsps]

/-! ### The pattern catalog (`PromptProcessor.operation_patterns`), transcribed
pattern by pattern.  The original pattern string appears in the comment above
each definition. -/

-- r"extract.*(?:from\s+)?lines?\s+(\d+)[-\s]*(?:to\s+)?(\d+).*(?:method|function)\s+(?:called\s+)?[quote]?(\w+)[quote]?"
def patExtract0 : RePat :=
  ⟨rseqL [rstr "extract", rdots, ropt (.seq (rstr "from") rsps), rlinesWs,
          rdigits 1, .star (.ch .dashSpace), ropt (.seq (rstr "to") rsps), rdigits 2,
          rdots, .alt (rstr "method") (rstr "function"), rsps,
          ropt (.seq (rstr "called") rsps), rquoteOpt, rword 3, rquoteOpt], 3⟩

-- r"extract.*(?:method|function)\s+(?:called\s+)?[quote]?(\w+)[quote]?.*(?:from\s+)?lines?\s+(\d+)[-\s]*(?:to\s+)?(\d+)"
def patExtract1 : RePat :=
  ⟨rseqL [rstr "extract", rdots, .alt (rstr "method") (rstr "function"), rsps,
          ropt (.seq (rstr "called") rsps), rquoteOpt, rword 1, rquoteOpt,
          rdots, ropt (.seq (rstr "from") rsps), rlinesWs,
          rdigits 2, .star (.ch .dashSpace), ropt (.seq (rstr "to") rsps), rdigits 3], 3⟩

-- r"extract.*validation\s+logic"
def patExtract2 : RePat :=
  ⟨rseqL [rstr "extract", rdots, rstr "validation", rsps, rstr "logic"], 0⟩

-- r"extract.*calculation\s+logic"
def patExtract3 : RePat :=
  ⟨rseqL [rstr "extract", rdots, rstr "calculation", rsps, rstr "logic"], 0⟩

-- r"rename\s+function\s+[quote]?(\w+)[quote]?\s+to\s+[quote]?(\w+)[quote]?"
def patRenameFun0 : RePat :=
  ⟨rseqL [rstr "rename", rsps, rstr "function", rsps, rquoteOpt, rword 1, rquoteOpt,
          rsps, rstr "to", rsps, rquoteOpt, rword 2, rquoteOpt], 2⟩

-- r"rename.*function.*[quote]?(\w+)[quote]?.*[quote]?(\w+)[quote]?"
def patRenameFun1 : RePat :=
  ⟨rseqL [rstr "rename", rdots, rstr "function", rdots, rquoteOpt, rword 1, rquoteOpt,
          rdots, rquoteOpt, rword 2, rquoteOpt], 2⟩

-- r"rename.*function.*more\s+descriptive"
def patRenameFun2 : RePat :=
  ⟨rseqL [rstr "rename", rdots, rstr "function", rdots, rstr "more", rsps,
          rstr "descriptive"], 0⟩

-- r"rename\s+variable\s+[quote]?(\w+)[quote]?\s+to\s+[quote]?(\w+)[quote]?"
def patRenameVar0 : RePat :=
  ⟨rseqL [rstr "rename", rsps, rstr "variable", rsps, rquoteOpt, rword 1, rquoteOpt,
          rsps, rstr "to", rsps, rquoteOpt, rword 2, rquoteOpt], 2⟩

-- r"variable\s+name.*unclear.*change"
def patRenameVar1 : RePat :=
  ⟨rseqL [rstr "variable", rsps, rstr "name", rdots, rstr "unclear", rdots,
          rstr "change"], 0⟩

-- r"rename.*variable"
def patRenameVar2 : RePat :=
  ⟨rseqL [rstr "rename", rdots, rstr "variable"], 0⟩

-- r"inline.*variable\s+[quote]?(\w+)[quote]?"
def patInlineVar0 : RePat :=
  ⟨rseqL [rstr "inline", rdots, rstr "variable", rsps, rquoteOpt, rword 1, rquoteOpt], 1⟩

-- r"inline.*function\s+[quote]?(\w+)[quote]?"
def patInlineFun0 : RePat :=
  ⟨rseqL [rstr "inline", rdots, rstr "function", rsps, rquoteOpt, rword 1, rquoteOpt], 1⟩

-- r"move\s+method\s+[quote]?(\w+)[quote]?\s+from\s+(\w+)\s+(?:class\s+)?to\s+(\w+)\s+(?:class)?"
def patMove0 : RePat :=
  ⟨rseqL [rstr "move", rsps, rstr "method", rsps, rquoteOpt, rword 1, rquoteOpt,
          rsps, rstr "from", rsps, rword 2, rsps, ropt (.seq (rstr "class") rsps),
          rstr "to", rsps, rword 3, rsps, ropt (rstr "class")], 3⟩

-- r"remove\s+unused\s+(?:functions?|methods?):\s*(.*)"
def patRemove0 : RePat :=
  ⟨rseqL [rstr "remove", rsps, rstr "unused", rsps,
          .alt (.seq (rstr "function") (ropt (.ch (.lit 's'))))
               (.seq (rstr "method") (ropt (.ch (.lit 's')))),
          rstr ":", .star (.ch .space), .grp 1 rdots], 1⟩

-- r"remove.*unused\s+method"
def patRemove1 : RePat :=
  ⟨rseqL [rstr "remove", rdots, rstr "unused", rsps, rstr "method"], 0⟩

/-- `PromptProcessor.operation_patterns` in dict insertion order. -/
def operation_patterns : List (String × List RePat) :=
  [("extract_method", [patExtract0, patExtract1, patExtract2, patExtract3]),
   ("rename_function", [patRenameFun0, patRenameFun1, patRenameFun2]),
   ("rename_variable", [patRenameVar0, patRenameVar1, patRenameVar2]),
   ("inline_variable", [patInlineVar0]),
   ("inline_function", [patInlineFun0]),
   ("move_method", [patMove0]),
   ("remove_dead_code", [patRemove0, patRemove1])]

/-- `PromptProcessor.intent_keywords` in dict insertion order. -/
def intent_keywords : List (String × List String) :=
  [("extract_method", ["extract", "separate", "split", "factor out", "pull out"]),
   ("rename_function", ["rename function", "change function name", "better name"]),
   ("rename_variable", ["rename variable", "change variable", "unclear", "descriptive"]),
   ("inline_variable", ["inline variable", "substitute"]),
   ("inline_function", ["inline function", "expand"]),
   ("move_method", ["move method", "relocate"]),
   ("remove_dead_code", ["remove unused", "dead code", "clean up"])]

-- case-insensitive searches used by the move_method branch of
-- _create_request_from_match, run on the ORIGINAL prompt
-- r"from\s+(\w+)" with re.IGNORECASE
def patFromOrig : RePat :=
  ⟨rseqL [rstr "from", rsps, rword 1], 1⟩

-- r"to\s+(\w+)" with re.IGNORECASE
def patToOrig : RePat :=
  ⟨rseqL [rstr "to", rsps, rword 1], 1⟩

/-! ## `parse_prompt` and its helpers -/

/-- Python truthiness of a group value: `None` and the empty string are
falsy. -/
def truthy : Option String → Bool
  | none => false
  | some s => !(s.isEmpty)

/-- `groups[i]` for an in-range index (all accesses in the source are guarded
by `len(groups)` checks). -/
def gidx (groups : List (Option String)) (i : Nat) : Option String :=
  (groups.get? i).join

/-- Numeric value of a digit list. -/
def digitsVal (l : List Char) : Nat :=
  l.foldl (fun n c => n * 10 + (c.toNat - 48)) 0

/-- Python `int(s)` on a string: strip whitespace, allow one sign, then
require a non-empty run of digits; otherwise `ValueError` with CPython's
message.  (Underscore digit grouping is not modelled; no claim exercises
it.) -/
def pyInt (s : String) : Except PromptExc Int :=
  let t := (pyStrip s).toList
  let signed : Int × List Char :=
    match t with
    | c :: rest =>
      if c == '-' then (-1, rest) else if c == '+' then (1, rest) else (1, t)
    | [] => (1, [])
  if signed.2 ≠ [] ∧ signed.2.all Char.isDigit then
    .ok (signed.1 * digitsVal signed.2)
  else
    .error (.valueError ("invalid literal for int() with base 10: \x27" ++ s ++ "\x27"))

/-- `PromptProcessor._create_request_from_match`, branch by branch.  The
`extract_method` arm evaluates `int(...)` exactly where the source does, so a
word captured in a slot the code treats as numeric raises `ValueError`. -/
def create_request_from_match (operationType : String)
    (groups : List (Option String)) (promptLower origPrompt : String) :
    Except PromptExc RefactoringRequest :=
  if operationType = "extract_method" then
    if groups.length ≥ 3 ∧ truthy (gidx groups 2) then do
      -- branch comment in source: "method name in third group"
      let sl ← if truthy (gidx groups 0)
               then (some <$> pyInt (pyStrOpt (gidx groups 0)))
               else pure none
      let el ← if truthy (gidx groups 1)
               then (some <$> pyInt (pyStrOpt (gidx groups 1)))
               else pure none
      .ok { operation_type := operationType, method_name := gidx groups 2,
            start_line := sl, end_line := el }
    else if groups.length ≥ 1 ∧ truthy (gidx groups 0) then do
      -- branch comment in source: "method name in first group"
      let sl ← if groups.length > 1 ∧ truthy (gidx groups 1)
               then (some <$> pyInt (pyStrOpt (gidx groups 1)))
               else pure none
      let el ← if groups.length > 2 ∧ truthy (gidx groups 2)
               then (some <$> pyInt (pyStrOpt (gidx groups 2)))
               else pure none
      .ok { operation_type := operationType, method_name := gidx groups 0,
            start_line := sl, end_line := el }
    else
      .ok { operation_type := operationType,
            method_name :=
              if pyIn "validation" promptLower then some "validate"
              else if pyIn "calculation" promptLower then some "calculate"
              else some "extracted_method" }
  else if operationType = "rename_function" then
    if groups.length ≥ 2 then
      .ok { operation_type := operationType, old_name := gidx groups 0,
            new_name := gidx groups 1 }
    else .ok { operation_type := operationType }
  else if operationType = "rename_variable" then
    if groups.length ≥ 2 then
      .ok { operation_type := operationType, old_name := gidx groups 0,
            new_name := gidx groups 1 }
    else .ok { operation_type := operationType }
  else if operationType = "inline_variable" then
    .ok { operation_type := operationType,
          variable_name := if groups.isEmpty then none else gidx groups 0 }
  else if operationType = "inline_function" then
    .ok { operation_type := operationType,
          function_name := if groups.isEmpty then none else gidx groups 0 }
  else if operationType = "move_method" then
    if groups.length ≥ 3 then
      .ok { operation_type := operationType, method_name := gidx groups 0,
            source_class :=
              match reGroup1 true patFromOrig origPrompt with
              | some s => some s
              | none => (gidx groups 1).map pyTitle,
            target_class :=
              match reGroup1 true patToOrig origPrompt with
              | some s => some s
              | none => (gidx groups 2).map pyTitle }
    else .ok { operation_type := operationType }
  else if operationType = "remove_dead_code" then
    if !groups.isEmpty ∧ truthy (gidx groups 0) then
      .ok { operation_type := operationType,
            dead_functions :=
              some ((pySplitChar ',' (pyStrOpt (gidx groups 0))).map pyStrip) }
    else .ok { operation_type := operationType }
  else .ok { operation_type := operationType }

/-- First matching pattern of one operation kind (patterns in declared
order). -/
def firstPatGroups (pl : String) : List RePat → Option (List (Option String))
  | [] => none
  | p :: ps =>
    match reGroups false p pl with
    | some g => some g
    | none => firstPatGroups pl ps

/-- First matching (operation kind, groups) over the ordered catalog. -/
def scanPatternCatalog (pl : String) :
    List (String × List RePat) → Option (String × List (Option String))
  | [] => none
  | (opType, pats) :: rest =>
    match firstPatGroups pl pats with
    | some g => some (opType, g)
    | none => scanPatternCatalog pl rest

/-- `PromptProcessor.extract_intent`: first keyword list with a member
occurring in the lower-cased prompt, in dict order. -/
def scanIntent (pl : String) : List (String × List String) → Option String
  | [] => none
  | (k, kws) :: rest =>
    if kws.any (fun kw => pyIn kw pl) then some k else scanIntent pl rest

/-- `PromptProcessor.extract_intent`. -/
def extract_intent (prompt : String) : Option String :=
  scanIntent (pyLower prompt) intent_keywords

/-- Generic-improvement phrases of the ambiguity guard. -/
def genericPhrases : List String :=
  ["make", "better", "improve", "optimize"]

/-- Concrete operation verbs of the ambiguity guard. -/
def operationVerbs : List String :=
  ["extract", "rename", "inline", "move", "remove"]

/-- Language-conversion phrases of the unsupported-operation guard. -/
def conversionPhrases : List String :=
  ["convert", "translate", "different language"]

/-- Message of the ambiguity failure. -/
def ambiguousMsg : String :=
  "Ambiguous prompt: Please specify the type of refactoring you want"

/-- `PromptProcessor.parse_prompt`: ambiguity guard, conversion guard,
ordered pattern-catalog scan, intent fallback, unparsable failure — in that
order. -/
def parse_prompt (prompt : String) : Except PromptExc RefactoringRequest :=
  let pl := pyLower prompt
  if (genericPhrases.any fun ph => pyIn ph pl) &&
     !(operationVerbs.any fun v => pyIn v pl) then
    .error (.valueError ambiguousMsg)
  else if conversionPhrases.any fun ph => pyIn ph pl then
    .error (.notImplementedError "Language conversion is not supported")
  else
    match scanPatternCatalog pl operation_patterns with
    | some r => create_request_from_match r.1 r.2 pl prompt
    | none =>
      match extract_intent prompt with
      | some intent => .ok { operation_type := intent }
      | none =>
        .error (.valueError "Could not parse the refactoring request from the prompt")

/-- `PromptProcessor.validate_prompt`: run `parse_prompt` under
`try/except (ValueError, NotImplementedError)`.  Both constructors of
`PromptExc` are caught; any other exception would propagate, hence the
`Except` result type. -/
def validate_prompt (prompt : String) : Except PromptExc Bool :=
  match parse_prompt prompt with
  | .ok _ => .ok true
  | .error (.valueError _) => .ok false
  | .error (.notImplementedError _) => .ok false

/-! ## Claim-side specification functions

These definitions follow the wording of the specification rather than the
source; refinement theorems below compare them against the source-derived
transforms. -/

mutual

/-- Modelled from the spec wording of `rename_function`: rename the callee
identifier of every call whose callee is the bare identifier `old`, and
nothing else inside expressions. -/
def renameFunSpecExpr (old new : String) : PyExpr → PyExpr
  | .call (.name id ctx) args =>
    .call (.name (if id = old then new else id) ctx) (renameFunSpecExprList old new args)
  | .call f args => .call (renameFunSpecExpr old new f) (renameFunSpecExprList old new args)
  | .name id ctx => .name id ctx
  | .intConst n => .intConst n
  | .binOp l op r => .binOp (renameFunSpecExpr old new l) op (renameFunSpecExpr old new r)
  | .attr v a => .attr (renameFunSpecExpr old new v) a

/-- List version of `renameFunSpecExpr`. -/
def renameFunSpecExprList (old new : String) : List PyExpr → List PyExpr
  | [] => []
  | e :: es => renameFunSpecExpr old new e :: renameFunSpecExprList old new es

end

mutual

/-- Modelled from the spec wording of `rename_function`: rename every defining
declaration named `old`, tree-wide, and nothing else at statement level. -/
def renameFunSpecStmt (old new : String) : PyStmt → PyStmt
  | .functionDef n ps body =>
    .functionDef (if n = old then new else n) ps (renameFunSpecStmtList old new body)
  | .classDef n body => .classDef n (renameFunSpecStmtList old new body)
  | .ret v => .ret (v.map (renameFunSpecExpr old new))
  | .assign ts v =>
    .assign (renameFunSpecExprList old new ts) (renameFunSpecExpr old new v)
  | .exprStmt e => .exprStmt (renameFunSpecExpr old new e)
  | .pass => .pass

/-- List version of `renameFunSpecStmt`. -/
def renameFunSpecStmtList (old new : String) : List PyStmt → List PyStmt
  | [] => []
  | s :: ss => renameFunSpecStmt old new s :: renameFunSpecStmtList old new ss

end

/-- Modelled from the spec wording of `rename_function`, at module level. -/
def rename_function_spec (old new : String) (m : PyModule) : PyModule :=
  ⟨renameFunSpecStmtList old new m.body⟩

mutual

/-- Modelled from the spec wording of `inline_variable`: substitute the
captured expression `w` at every `Load` reference to `v`. -/
def substLoad (v : String) (w : PyExpr) : PyExpr → PyExpr
  | .name id ctx => if id = v ∧ ctx = .load then w else .name id ctx
  | .intConst n => .intConst n
  | .binOp l op r => .binOp (substLoad v w l) op (substLoad v w r)
  | .call f args => .call (substLoad v w f) (substLoadList v w args)
  | .attr e a => .attr (substLoad v w e) a

/-- List version of `substLoad`. -/
def substLoadList (v : String) (w : PyExpr) : List PyExpr → List PyExpr
  | [] => []
  | e :: es => substLoad v w e :: substLoadList v w es

end

mutual

/-- Modelled from the spec wording of `inline_variable`: scan statements in
program order; before the first assignment `v = e` nothing is substituted;
that assignment is deleted and its right-hand side captured; afterwards every
`Load` reference to `v` is replaced by the captured expression. -/
def inlineVarSpecStmt (v : String) (acc : Option PyExpr) :
    PyStmt → Option PyStmt × Option PyExpr
  | .assign ts val =>
    match acc with
    | some w => (some (.assign (substLoadList v w ts) (substLoad v w val)), some w)
    | none =>
      if singleTargetIs v ts then (none, some val)
      else (some (.assign ts val), none)
  | .functionDef n ps body =>
    let r := inlineVarSpecStmtList v acc body
    (some (.functionDef n ps r.1), r.2)
  | .classDef n body =>
    let r := inlineVarSpecStmtList v acc body
    (some (.classDef n r.1), r.2)
  | .ret val =>
    (some (.ret (match acc with
                 | some w => val.map (substLoad v w)
                 | none => val)), acc)
  | .exprStmt e =>
    (some (.exprStmt (match acc with
                      | some w => substLoad v w e
                      | none => e)), acc)
  | .pass => (some .pass, acc)

/-- List version of `inlineVarSpecStmt`. -/
def inlineVarSpecStmtList (v : String) (acc : Option PyExpr) :
    List PyStmt → List PyStmt × Option PyExpr
  | [] => ([], acc)
  | s :: ss =>
    let r := inlineVarSpecStmt v acc s
    let rs := inlineVarSpecStmtList v r.2 ss
    (match r.1 with
     | some s1 => s1 :: rs.1
     | none => rs.1, rs.2)

end

/-- Modelled from the spec wording of `inline_variable`, at module level. -/
def inline_variable_spec (v : String) (m : PyModule) : PyModule :=
  ⟨(inlineVarSpecStmtList v none m.body).1⟩

/-- Modelled from the claim as amended for `extract_method`: the sliced lines
are each stripped of leading/trailing whitespace and re-indented by exactly
four spaces (NOT copied verbatim); everything else as the claim states. -/
def extract_method_amended (code nm : String) (s e : Nat) : String :=
  let lines := pySplitChar '\n' code
  "def " ++ nm ++ "(item_price):"
    ++ catMap (fun l => "\n    " ++ pyStrip l) ((lines.drop (s - 1)).take (e + 1 - s))
    ++ "\n    return discounted_price\n\n"
    ++ String.intercalate "\n"
        (lines.take (s - 1)
          ++ ["            discounted_price = " ++ nm ++ "(item.price)"]
          ++ lines.drop e)

/-! ## Concrete instances used by the evaluation theorems -/

/-- Shorthand for a `Load` name. -/
def nmL (id : String) : PyExpr := .name id .load

/-- Shorthand for a `Store` name. -/
def nmS (id : String) : PyExpr := .name id .store

/-- Source text: a two-parameter add function with two call sites passing
different arguments. -/
def codeTwoCalls : String :=
  "def add(a, b):\n    return a + b\nx = add(1, 2)\ny = add(3, 4)"

/-- Tree of `codeTwoCalls`. -/
def modTwoCalls : PyModule :=
  ⟨[.functionDef "add" ["a", "b"] [.ret (some (.binOp (nmL "a") .add (nmL "b")))],
    .assign [nmS "x"] (.call (nmL "add") [.intConst 1, .intConst 2]),
    .assign [nmS "y"] (.call (nmL "add") [.intConst 3, .intConst 4])]⟩

/-- Source text: a function whose single-statement body returns a bare name
(not a binary operation), with one call site. -/
def codeRawReturn : String :=
  "def f(a, b):\n    return a\nx = f(1, 2)"

/-- Tree of `codeRawReturn`. -/
def modRawReturn : PyModule :=
  ⟨[.functionDef "f" ["a", "b"] [.ret (some (nmL "a"))],
    .assign [nmS "x"] (.call (nmL "f") [.intConst 1, .intConst 2])]⟩

/-- Source text: source class holding the method (plus a `pass` so its body
stays non-empty) and a target class whose body is the single-statement `pass`
placeholder. -/
def codeMove : String :=
  "class Calculator:\n    def add(self, a, b):\n        return a + b\n    pass\n\nclass MathUtils:\n    pass"

/-- Tree of `codeMove`. -/
def modMove : PyModule :=
  ⟨[.classDef "Calculator"
      [.functionDef "add" ["self", "a", "b"]
        [.ret (some (.binOp (nmL "a") .add (nmL "b")))],
       .pass],
    .classDef "MathUtils" [.pass]]⟩

/-- Source text of the inline-variable test program. -/
def codeInlineVar : String :=
  "temp = 5 * 3\nresult = temp + 10"

/-- Tree of `codeInlineVar`. -/
def modInlineVar : PyModule :=
  ⟨[.assign [nmS "temp"] (.binOp (.intConst 5) .mult (.intConst 3)),
    .assign [nmS "result"] (.binOp (nmL "temp") .add (.intConst 10))]⟩

/-- Input of the extract-method counterexample: the middle line is indented by
eight spaces, so its verbatim copy is distinguishable from the stripped,
four-space re-indented copy. -/
def codeIndent : String :=
  "a = 1\n        y = 2\nb = 3"

/-- A module used by witnesses: one definition and one call. -/
def modSmall : PyModule :=
  ⟨[.functionDef "calc" ["a"] [.ret (some (.binOp (nmL "a") .add (.intConst 1)))],
    .exprStmt (.call (nmL "calc") [.intConst 2])]⟩

/-! ## Theorems

Helper lemmas first (shared infrastructure), then one theorem per claim with
its witness or counterexample. -/

mutual

/-- The visitor-derived function renamer agrees with the spec-side renamer on
expressions. -/
theorem renameFunExpr_eq_spec (old new : String) :
    (e : PyExpr) → renameFunExpr old new e = renameFunSpecExpr old new e
  | .name _ _ => rfl
  | .intConst _ => rfl
  | .binOp l op r =>
    congrArg₂ (fun a b => PyExpr.binOp a op b)
      (renameFunExpr_eq_spec old new l) (renameFunExpr_eq_spec old new r)
  | .call (.name id ctx) args =>
    congrArg (fun x => PyExpr.call (.name (if id = old then new else id) ctx) x)
      (renameFunExprList_eq_spec old new args)
  | .call (.intConst n) args =>
    congrArg (fun x => PyExpr.call (.intConst n) x)
      (renameFunExprList_eq_spec old new args)
  | .call (.binOp l op r) args =>
    congrArg₂ PyExpr.call (renameFunExpr_eq_spec old new (.binOp l op r))
      (renameFunExprList_eq_spec old new args)
  | .call (.call f1 args1) args =>
    congrArg₂ PyExpr.call (renameFunExpr_eq_spec old new (.call f1 args1))
      (renameFunExprList_eq_spec old new args)
  | .call (.attr v a) args =>
    congrArg₂ PyExpr.call (renameFunExpr_eq_spec old new (.attr v a))
      (renameFunExprList_eq_spec old new args)
  | .attr v a =>
    congrArg (fun x => PyExpr.attr x a) (renameFunExpr_eq_spec old new v)

/-- List version of `renameFunExpr_eq_spec`. -/
theorem renameFunExprList_eq_spec (old new : String) :
    (es : List PyExpr) → renameFunExprList old new es = renameFunSpecExprList old new es
  | [] => rfl
  | e :: es =>
    congrArg₂ List.cons (renameFunExpr_eq_spec old new e)
      (renameFunExprList_eq_spec old new es)

end

mutual

/-- The visitor-derived function renamer agrees with the spec-side renamer on
statements. -/
theorem renameFunStmt_eq_spec (old new : String) :
    (s : PyStmt) → renameFunStmt old new s = renameFunSpecStmt old new s
  | .functionDef n ps body =>
    congrArg (PyStmt.functionDef (if n = old then new else n) ps)
      (renameFunStmtList_eq_spec old new body)
  | .classDef n body =>
    congrArg (PyStmt.classDef n) (renameFunStmtList_eq_spec old new body)
  | .ret none => rfl
  | .ret (some e) =>
    congrArg (fun x => PyStmt.ret (some x)) (renameFunExpr_eq_spec old new e)
  | .assign ts v =>
    congrArg₂ PyStmt.assign (renameFunExprList_eq_spec old new ts)
      (renameFunExpr_eq_spec old new v)
  | .exprStmt e =>
    congrArg PyStmt.exprStmt (renameFunExpr_eq_spec old new e)
  | .pass => rfl

/-- List version of `renameFunStmt_eq_spec`. -/
theorem renameFunStmtList_eq_spec (old new : String) :
    (ss : List PyStmt) → renameFunStmtList old new ss = renameFunSpecStmtList old new ss
  | [] => rfl
  | s :: ss =>
    congrArg₂ List.cons (renameFunStmt_eq_spec old new s)
      (renameFunStmtList_eq_spec old new ss)

end

mutual

/-- Renaming a variable `old → new` and then `new → old` restores an
expression in which `new` did not occur. -/
theorem renameVarExpr_rt (old new : String) :
    (e : PyExpr) → occursExpr new e = false →
    renameVarExpr new old (renameVarExpr old new e) = e
  | .name id ctx, h => by
    simp only [occursExpr, decide_eq_false_iff_not] at h
    by_cases hio : id = old
    · subst hio; simp [renameVarExpr]
    · simp [renameVarExpr, hio, h]
  | .intConst _, _ => rfl
  | .binOp l op r, h => by
    simp only [occursExpr, Bool.or_eq_false_iff] at h
    exact congrArg₂ (fun a b => PyExpr.binOp a op b)
      (renameVarExpr_rt old new l h.1) (renameVarExpr_rt old new r h.2)
  | .call f args, h => by
    simp only [occursExpr, Bool.or_eq_false_iff] at h
    exact congrArg₂ PyExpr.call (renameVarExpr_rt old new f h.1)
      (renameVarExprList_rt old new args h.2)
  | .attr v a, h => by
    simp only [occursExpr, Bool.or_eq_false_iff] at h
    exact congrArg (fun x => PyExpr.attr x a) (renameVarExpr_rt old new v h.2)

/-- List version of `renameVarExpr_rt`. -/
theorem renameVarExprList_rt (old new : String) :
    (es : List PyExpr) → occursExprList new es = false →
    renameVarExprList new old (renameVarExprList old new es) = es
  | [], _ => rfl
  | e :: es, h => by
    simp only [occursExprList, Bool.or_eq_false_iff] at h
    exact congrArg₂ List.cons (renameVarExpr_rt old new e h.1)
      (renameVarExprList_rt old new es h.2)

end

/-- Round trip of the parameter renaming when `new` is not a parameter. -/
theorem renameParams_rt (old new : String) :
    (ps : List String) → strHas new ps = false →
    renameParams new old (renameParams old new ps) = ps
  | [], _ => rfl
  | p :: ps, h => by
    simp only [strHas, Bool.or_eq_false_iff, decide_eq_false_iff_not] at h
    have tail := renameParams_rt old new ps h.2
    simp only [renameParams, List.map] at tail ⊢
    by_cases hp : p = old
    · subst hp; simp [tail]
    · simp [hp, h.1, tail]

mutual

/-- Round trip of the variable renamer on statements. -/
theorem renameVarStmt_rt (old new : String) :
    (s : PyStmt) → occursStmt new s = false →
    renameVarStmt new old (renameVarStmt old new s) = s
  | .functionDef n ps body, h => by
    simp only [occursStmt, Bool.or_eq_false_iff] at h
    exact congrArg₂ (PyStmt.functionDef n) (renameParams_rt old new ps h.1.2)
      (renameVarStmtList_rt old new body h.2)
  | .classDef n body, h => by
    simp only [occursStmt, Bool.or_eq_false_iff] at h
    exact congrArg (PyStmt.classDef n) (renameVarStmtList_rt old new body h.2)
  | .ret none, _ => rfl
  | .ret (some e), h =>
    congrArg (fun x => PyStmt.ret (some x))
      (renameVarExpr_rt old new e (by simpa [occursStmt] using h))
  | .assign ts v, h => by
    simp only [occursStmt, Bool.or_eq_false_iff] at h
    exact congrArg₂ PyStmt.assign (renameVarExprList_rt old new ts h.1)
      (renameVarExpr_rt old new v h.2)
  | .exprStmt e, h =>
    congrArg PyStmt.exprStmt
      (renameVarExpr_rt old new e (by simpa [occursStmt] using h))
  | .pass, _ => rfl

/-- List version of `renameVarStmt_rt`. -/
theorem renameVarStmtList_rt (old new : String) :
    (ss : List PyStmt) → occursStmtList new ss = false →
    renameVarStmtList new old (renameVarStmtList old new ss) = ss
  | [], _ => rfl
  | s :: ss, h => by
    simp only [occursStmtList, Bool.or_eq_false_iff] at h
    exact congrArg₂ List.cons (renameVarStmt_rt old new s h.1)
      (renameVarStmtList_rt old new ss h.2)

end

mutual

/-- Round trip of the function renamer on expressions. -/
theorem renameFunExpr_rt (old new : String) :
    (e : PyExpr) → occursExpr new e = false →
    renameFunExpr new old (renameFunExpr old new e) = e
  | .name _ _, _ => rfl
  | .intConst _, _ => rfl
  | .binOp l op r, h => by
    simp only [occursExpr, Bool.or_eq_false_iff] at h
    exact congrArg₂ (fun a b => PyExpr.binOp a op b)
      (renameFunExpr_rt old new l h.1) (renameFunExpr_rt old new r h.2)
  | .call (.name id ctx) args, h => by
    simp only [occursExpr, Bool.or_eq_false_iff, decide_eq_false_iff_not] at h
    have args1 := renameFunExprList_rt old new args h.2
    by_cases hio : id = old
    · subst hio
      simp [renameFunExpr, args1]
    · simp [renameFunExpr, hio, h.1, args1]
  | .call (.intConst n) args, h => by
    simp only [occursExpr, Bool.or_eq_false_iff] at h
    exact congrArg (PyExpr.call (.intConst n)) (renameFunExprList_rt old new args h.2)
  | .call (.binOp l op r) args, h => by
    simp only [occursExpr, Bool.or_eq_false_iff] at h
    exact congrArg₂ PyExpr.call (renameFunExpr_rt old new (.binOp l op r) (by simp [occursExpr, h.1.1, h.1.2]))
      (renameFunExprList_rt old new args h.2)
  | .call (.call f1 args1) args, h => by
    simp only [occursExpr, Bool.or_eq_false_iff] at h
    have hf := renameFunExpr_rt old new (.call f1 args1)
      (by simp [occursExpr, h.1.1, h.1.2])
    have ha := renameFunExprList_rt old new args h.2
    obtain ⟨g, as2, hX⟩ :
        ∃ g as2, renameFunExpr old new (.call f1 args1) = PyExpr.call g as2 := by
      cases f1 <;> exact ⟨_, _, rfl⟩
    rw [show renameFunExpr old new (.call (.call f1 args1) args) =
          .call (renameFunExpr old new (.call f1 args1))
            (renameFunExprList old new args) from rfl, hX,
        show renameFunExpr new old (.call (.call g as2) (renameFunExprList old new args)) =
          .call (renameFunExpr new old (.call g as2))
            (renameFunExprList new old (renameFunExprList old new args)) from rfl,
        ← hX, hf, ha]
  | .call (.attr v a) args, h => by
    simp only [occursExpr, Bool.or_eq_false_iff] at h
    exact congrArg₂ PyExpr.call
      (renameFunExpr_rt old new (.attr v a) (by simp [occursExpr, h.1.1, h.1.2]))
      (renameFunExprList_rt old new args h.2)
  | .attr v a, h => by
    simp only [occursExpr, Bool.or_eq_false_iff] at h
    exact congrArg (fun x => PyExpr.attr x a) (renameFunExpr_rt old new v h.2)

/-- List version of `renameFunExpr_rt`. -/
theorem renameFunExprList_rt (old new : String) :
    (es : List PyExpr) → occursExprList new es = false →
    renameFunExprList new old (renameFunExprList old new es) = es
  | [], _ => rfl
  | e :: es, h => by
    simp only [occursExprList, Bool.or_eq_false_iff] at h
    exact congrArg₂ List.cons (renameFunExpr_rt old new e h.1)
      (renameFunExprList_rt old new es h.2)

end

mutual

/-- Round trip of the function renamer on statements. -/
theorem renameFunStmt_rt (old new : String) :
    (s : PyStmt) → occursStmt new s = false →
    renameFunStmt new old (renameFunStmt old new s) = s
  | .functionDef n ps body, h => by
    simp only [occursStmt, Bool.or_eq_false_iff, decide_eq_false_iff_not] at h
    have body1 := renameFunStmtList_rt old new body h.2
    by_cases hn : n = old
    · subst hn
      simp [renameFunStmt, body1]
    · simp [renameFunStmt, hn, h.1.1, body1]
  | .classDef n body, h => by
    simp only [occursStmt, Bool.or_eq_false_iff] at h
    exact congrArg (PyStmt.classDef n) (renameFunStmtList_rt old new body h.2)
  | .ret none, _ => rfl
  | .ret (some e), h =>
    congrArg (fun x => PyStmt.ret (some x))
      (renameFunExpr_rt old new e (by simpa [occursStmt] using h))
  | .assign ts v, h => by
    simp only [occursStmt, Bool.or_eq_false_iff] at h
    exact congrArg₂ PyStmt.assign (renameFunExprList_rt old new ts h.1)
      (renameFunExpr_rt old new v h.2)
  | .exprStmt e, h =>
    congrArg PyStmt.exprStmt
      (renameFunExpr_rt old new e (by simpa [occursStmt] using h))
  | .pass, _ => rfl

/-- List version of `renameFunStmt_rt`. -/
theorem renameFunStmtList_rt (old new : String) :
    (ss : List PyStmt) → occursStmtList new ss = false →
    renameFunStmtList new old (renameFunStmtList old new ss) = ss
  | [], _ => rfl
  | s :: ss, h => by
    simp only [occursStmtList, Bool.or_eq_false_iff] at h
    exact congrArg₂ List.cons (renameFunStmt_rt old new s h.1)
      (renameFunStmtList_rt old new ss h.2)

end

mutual

/-- Before any assignment is captured the inliner leaves expressions
unchanged (whatever the redundant `found_assignment` flag holds). -/
theorem inlineVarExpr_none (v : String) (b : Bool) :
    (e : PyExpr) → inlineVarExpr v ⟨none, b⟩ e = e
  | .name _ _ => rfl
  | .intConst _ => rfl
  | .binOp l op r =>
    congrArg₂ (fun a c => PyExpr.binOp a op c)
      (inlineVarExpr_none v b l) (inlineVarExpr_none v b r)
  | .call f args =>
    congrArg₂ PyExpr.call (inlineVarExpr_none v b f) (inlineVarExprList_none v b args)
  | .attr e a =>
    congrArg (fun x => PyExpr.attr x a) (inlineVarExpr_none v b e)

/-- List version of `inlineVarExpr_none`. -/
theorem inlineVarExprList_none (v : String) (b : Bool) :
    (es : List PyExpr) → inlineVarExprList v ⟨none, b⟩ es = es
  | [] => rfl
  | e :: es =>
    congrArg₂ List.cons (inlineVarExpr_none v b e) (inlineVarExprList_none v b es)

end

mutual

/-- Once an expression is captured the inliner substitutes it at every `Load`
reference, i.e. it acts as the claim-side `substLoad`. -/
theorem inlineVarExpr_some (v : String) (w : PyExpr) (b : Bool) :
    (e : PyExpr) → inlineVarExpr v ⟨some w, b⟩ e = substLoad v w e
  | .name _ _ => rfl
  | .intConst _ => rfl
  | .binOp l op r =>
    congrArg₂ (fun a c => PyExpr.binOp a op c)
      (inlineVarExpr_some v w b l) (inlineVarExpr_some v w b r)
  | .call f args =>
    congrArg₂ PyExpr.call (inlineVarExpr_some v w b f)
      (inlineVarExprList_some v w b args)
  | .attr e a =>
    congrArg (fun x => PyExpr.attr x a) (inlineVarExpr_some v w b e)

/-- List version of `inlineVarExpr_some`. -/
theorem inlineVarExprList_some (v : String) (w : PyExpr) (b : Bool) :
    (es : List PyExpr) → inlineVarExprList v ⟨some w, b⟩ es = substLoadList v w es
  | [] => rfl
  | e :: es =>
    congrArg₂ List.cons (inlineVarExpr_some v w b e)
      (inlineVarExprList_some v w b es)

end

mutual

/-- On the visitor states actually reachable (`found_assignment` equals
`value_node.isSome`), the source-derived variable inliner agrees with the
claim-side description. -/
theorem inlineVarStmt_spec (v : String) :
    (s : PyStmt) → (acc : Option PyExpr) →
    inlineVarStmt v ⟨acc, acc.isSome⟩ s =
      ((inlineVarSpecStmt v acc s).1,
       ⟨(inlineVarSpecStmt v acc s).2, (inlineVarSpecStmt v acc s).2.isSome⟩)
  | .assign ts val, acc => by
    cases acc with
    | none =>
      by_cases hst : singleTargetIs v ts
      · simp [inlineVarStmt, inlineVarSpecStmt, hst]
      · simp [inlineVarStmt, inlineVarSpecStmt, hst,
              inlineVarExpr_none, inlineVarExprList_none]
    | some w =>
      simp [inlineVarStmt, inlineVarSpecStmt,
            inlineVarExpr_some, inlineVarExprList_some]
  | .functionDef n ps body, acc => by
    have ih := inlineVarStmtList_spec v body acc
    simp [inlineVarStmt, inlineVarSpecStmt, ih]
  | .classDef n body, acc => by
    have ih := inlineVarStmtList_spec v body acc
    simp [inlineVarStmt, inlineVarSpecStmt, ih]
  | .ret val, acc => by
    cases acc with
    | none =>
      cases val with
      | none => rfl
      | some e => simp [inlineVarStmt, inlineVarSpecStmt, inlineVarExpr_none]
    | some w =>
      cases val with
      | none => rfl
      | some e => simp [inlineVarStmt, inlineVarSpecStmt, inlineVarExpr_some]
  | .exprStmt e, acc => by
    cases acc with
    | none => simp [inlineVarStmt, inlineVarSpecStmt, inlineVarExpr_none]
    | some w => simp [inlineVarStmt, inlineVarSpecStmt, inlineVarExpr_some]
  | .pass, acc => rfl

/-- List version of `inlineVarStmt_spec`. -/
theorem inlineVarStmtList_spec (v : String) :
    (ss : List PyStmt) → (acc : Option PyExpr) →
    inlineVarStmtList v ⟨acc, acc.isSome⟩ ss =
      ((inlineVarSpecStmtList v acc ss).1,
       ⟨(inlineVarSpecStmtList v acc ss).2, (inlineVarSpecStmtList v acc ss).2.isSome⟩)
  | [], _ => rfl
  | s :: ss, acc => by
    have ih1 := inlineVarStmt_spec v s acc
    have ih2 := inlineVarStmtList_spec v ss (inlineVarSpecStmt v acc s).2
    simp only [inlineVarStmtList, inlineVarSpecStmtList, ih1, ih2]

end

/-- Rendering the line list by a left fold of append equals prepending the
concatenated rendered pieces. -/
theorem foldl_append_catMap :
    (l : List String) → (init : String) →
      l.foldl (fun acc line => acc ++ "\n    " ++ pyStrip line) init =
        init ++ catMap (fun line => "\n    " ++ pyStrip line) l
  | [], init => by simp [catMap]
  | a :: l, init => by
    show List.foldl (fun acc line => acc ++ "\n    " ++ pyStrip line)
        (init ++ "\n    " ++ pyStrip a) l =
      init ++ catMap (fun line => "\n    " ++ pyStrip line) (a :: l)
    rw [foldl_append_catMap l (init ++ "\n    " ++ pyStrip a)]
    simp [catMap, String.append_assoc]

/-- Slice normalisation for an in-range non-negative bound. -/
theorem pyNorm_ofNat (n len : Nat) (h : n ≤ len) : pyNorm (↑n) len = n := by
  unfold pyNorm
  rw [if_neg (by omega)]
  omega

/-- Slice normalisation for `start_line - 1`. -/
theorem pyNorm_sub_one (s len : Nat) (h1 : 1 ≤ s) (h2 : s - 1 ≤ len) :
    pyNorm (↑s - 1) len = s - 1 := by
  unfold pyNorm
  rw [if_neg (by omega)]
  omega

/-- C1: the claim says `_inline_function` substitutes each call site's own
arguments into a binary-operation body and leaves call sites unchanged for
non-binary bodies.  The code instead mutates the SHARED body node (its own
comment says "Create a copy of the body node", but none is made), so the
second call site receives the first call's substituted arguments
(`y = 1 + 2`, not `y = 3 + 4`); and a call on a bare-name return body is
replaced by the raw body expression (`x = a`), not left unchanged.  This
theorem evaluates the engine at both failing inputs. -/
theorem inline_function_shared_body_eval :
    apply_refactoring codeTwoCalls (.ok modTwoCalls)
      { type := "inline_function", function_name := some "add" } =
      .ok (some "x = 1 + 2\ny = 1 + 2") ∧
    apply_refactoring codeRawReturn (.ok modRawReturn)
      { type := "inline_function", function_name := some "f" } =
      .ok (some "x = a") :=
  ⟨rfl, rfl⟩

/-- C2 (counterexample): `_extract_method` does NOT copy the sliced lines
verbatim — each line is stripped and re-indented with four spaces.  On an
input whose extracted line is indented by eight spaces, that exact line (which
line 2 of the input is) occurs nowhere in the output. -/
theorem extract_method_not_verbatim_cex :
    apply_refactoring codeIndent (.error .syntaxError)
      { type := "extract_method", start_line := some 2, end_line := some 2,
        new_method_name := some "m" } =
      .ok (some "def m(item_price):\n    y = 2\n    return discounted_price\n\na = 1\n            discounted_price = m(item.price)\nb = 3") ∧
    (pySplitChar '\n' codeIndent).get? 1 = some "        y = 2" ∧
    pyIn "        y = 2"
      "def m(item_price):\n    y = 2\n    return discounted_price\n\na = 1\n            discounted_price = m(item.price)\nb = 3" = false :=
  ⟨rfl, rfl, rfl⟩

/-- C2 (amended): for every in-range 1-indexed line range, `apply_refactoring`
with an `extract_method` operation copies lines `start_line..end_line`
inclusive, each STRIPPED of surrounding whitespace and re-indented by exactly
four spaces, into the body of the new fixed-parameter function, appends the
fixed `return`, and replaces the range with the single fixed-name call
assignment (the new definition being prepended to the output). -/
theorem extract_method_strips_lines :
    ∀ (code nm : String) (s e : Nat) (parsed : Except EngineExc PyModule),
      1 ≤ s → s ≤ e → e ≤ (pySplitChar '\n' code).length →
      apply_refactoring code parsed
        { type := "extract_method", start_line := some (s : Int),
          end_line := some (e : Int), new_method_name := some nm } =
        .ok (some (extract_method_amended code nm s e)) := by
  intro code nm s e parsed h1 h2 h3
  have hsup : supported_operations.contains "extract_method" = true := by decide
  have hx : extract_method code
      { type := "extract_method", start_line := some (s : Int),
        end_line := some (e : Int), new_method_name := some nm } =
      .ok (extract_method_amended code nm s e) := by
    have e1 : pyNorm (e : Int) (pySplitChar '\n' code).length = e :=
      pyNorm_ofNat e _ h3
    have e2 : pyNorm ((s : Int) - 1) (pySplitChar '\n' code).length = s - 1 :=
      pyNorm_sub_one s _ h1 (by omega)
    simp only [extract_method, pySliceII, pySliceFromI, pySliceToI, e1, e2,
      List.drop_take, foldl_append_catMap, extract_method_amended, pyStrOpt]
    rw [show e - (s - 1) = e + 1 - s from by omega]
    simp [String.append_assoc]
  unfold apply_refactoring
  rw [if_neg (by simp [hsup, supported_operations]), if_pos rfl, hx]
  rfl

/-- Witness for the amended C2 theorem at a concrete in-range input. -/
theorem extract_method_strips_lines_witness :
    1 ≤ 2 ∧ 2 ≤ 2 ∧ 2 ≤ (pySplitChar '\n' codeIndent).length ∧
    apply_refactoring codeIndent (.error .syntaxError)
      { type := "extract_method", start_line := some 2, end_line := some 2,
        new_method_name := some "m" } =
      .ok (some (extract_method_amended codeIndent "m" 2 2)) :=
  ⟨by decide, by decide, by decide,
   extract_method_strips_lines codeIndent "m" 2 2 (.error .syntaxError)
     (by decide) (by decide) (by decide)⟩

/-- C3: the claim says the group-extraction logic detects which capture slot
holds the method name for the `(name)(lines)(lines)` extract pattern.  It does
not: `_create_request_from_match` only tests truthiness of `groups[2]`, which
for that pattern holds the end line, so `int(groups[0])` is applied to the
captured NAME and `parse_prompt` raises `ValueError` instead of returning a
request.  This theorem evaluates the resolver at the claim's own example
prompt. -/
theorem parse_prompt_extract_name_first_raises :
    parse_prompt "extract method \x27helper\x27 from lines 5 to 7" =
      .error (.valueError "invalid literal for int() with base 10: \x27helper\x27") :=
  rfl

/-- C4: the claim says a moved method REPLACES the single-`pass` placeholder
body of the target class.  The code's `node.body == [ast.Pass()]` check
compares fresh objects by identity and never succeeds, so the method is
appended after the retained `pass`.  This theorem evaluates the engine at such
an input: the placeholder survives in the target class, both at tree level
and in the rendered output. -/
theorem move_method_placeholder_retained_eval :
    move_method (some "Calculator") (some "MathUtils") (some "add") modMove =
      ⟨[.classDef "Calculator" [.pass],
        .classDef "MathUtils"
          [.pass,
           .functionDef "add" ["self", "a", "b"]
             [.ret (some (.binOp (nmL "a") .add (nmL "b")))]]]⟩ ∧
    apply_refactoring codeMove (.ok modMove)
      { type := "move_method", method_name := some "add",
        source_class := some "Calculator", target_class := some "MathUtils" } =
      .ok (some "class Calculator:\n    pass\n\nclass MathUtils:\n    pass\n\n    def add(self, a, b):\n        return a + b") :=
  ⟨rfl, rfl⟩

/-- C5: `_inline_variable` deletes the first single-target assignment to the
variable in program order and substitutes its captured right-hand side at
every subsequent `Load` reference (proved as agreement with the claim-side
description `inline_variable_spec` on every module); on the
`temp = 5 * 3; result = temp + 10` input, the output is exactly
`result = 5 * 3 + 10`, which contains the substituted statement and not the
original assignment. -/
theorem inline_variable_first_assignment_substitution :
    (∀ (v : String) (m : PyModule), inline_variable v m = inline_variable_spec v m) ∧
    apply_refactoring codeInlineVar (.ok modInlineVar)
      { type := "inline_variable", variable_name := some "temp" } =
      .ok (some "result = 5 * 3 + 10") ∧
    pyIn "result = 5 * 3 + 10" "result = 5 * 3 + 10" = true ∧
    pyIn "temp = 5 * 3" "result = 5 * 3 + 10" = false := by
  refine ⟨?_, rfl, rfl, rfl⟩
  intro v m
  show PyModule.mk (inlineVarStmtList v ⟨none, false⟩ m.body).1 =
    ⟨(inlineVarSpecStmtList v none m.body).1⟩
  rw [show (⟨none, false⟩ : IVState) =
        ⟨(none : Option PyExpr), (none : Option PyExpr).isSome⟩ from rfl,
      inlineVarStmtList_spec v m.body none]

/-- C6: on a source with no occurrence of `new_name`, renaming
`old_name → new_name` and then `new_name → old_name` restores the original
tree exactly (hence a structurally equivalent tree), for both
`rename_variable` and `rename_function`. -/
theorem rename_roundtrip_structural_identity :
    ∀ (m : PyModule) (old new : String), occursMod new m = false →
      rename_variable new old (rename_variable old new m) = m ∧
      rename_function new old (rename_function old new m) = m := by
  intro m old new h
  have h1 : occursStmtList new m.body = false := h
  constructor
  · show PyModule.mk (renameVarStmtList new old (renameVarStmtList old new m.body)) = m
    rw [renameVarStmtList_rt old new m.body h1]
  · show PyModule.mk (renameFunStmtList new old (renameFunStmtList old new m.body)) = m
    rw [renameFunStmtList_rt old new m.body h1]

/-- Witness for C6 at a concrete module free of the new name. -/
theorem rename_roundtrip_structural_identity_witness :
    occursMod "compute_sum" modSmall = false ∧
    rename_variable "compute_sum" "calc"
      (rename_variable "calc" "compute_sum" modSmall) = modSmall ∧
    rename_function "compute_sum" "calc"
      (rename_function "calc" "compute_sum" modSmall) = modSmall :=
  ⟨rfl,
   (rename_roundtrip_structural_identity modSmall "calc" "compute_sum" rfl).1,
   (rename_roundtrip_structural_identity modSmall "calc" "compute_sum" rfl).2⟩

/-- C7: a prompt whose lower-cased text contains one of the four
generic-improvement phrases and none of the five concrete operation verbs
makes `parse_prompt` fail with the ambiguous-prompt `ValueError`, regardless
of anything later in the pipeline (the guard runs before pattern matching);
in particular `parse_prompt "Make this code better"` raises it. -/
theorem ambiguous_prompt_guard :
    (∀ p : String,
      (genericPhrases.any fun ph => pyIn ph (pyLower p)) = true →
      (operationVerbs.any fun v => pyIn v (pyLower p)) = false →
      parse_prompt p = .error (.valueError ambiguousMsg)) ∧
    parse_prompt "Make this code better" = .error (.valueError ambiguousMsg) := by
  constructor
  · intro p h1 h2
    simp [parse_prompt, h1, h2]
  · rfl

/-- Witness for C7 at a concrete generic prompt. -/
theorem ambiguous_prompt_guard_witness :
    (genericPhrases.any fun ph => pyIn ph (pyLower "Improve the code")) = true ∧
    (operationVerbs.any fun v => pyIn v (pyLower "Improve the code")) = false ∧
    parse_prompt "Improve the code" = .error (.valueError ambiguousMsg) :=
  ⟨by decide, by decide,
   ambiguous_prompt_guard.1 "Improve the code" (by decide) (by decide)⟩

/-- C8: an operation whose type is outside the seven supported kinds makes
`apply_refactoring` fail with `NotImplementedError` carrying the source's
message, for EVERY input text and every parse outcome (including a parse
failure — the guard runs before the tree is forced), so no rewritten text is
produced. -/
theorem unsupported_operation_rejected :
    ∀ (code : String) (parsed : Except EngineExc PyModule) (op : RefactoringOperation),
      supported_operations.contains op.type = false →
      apply_refactoring code parsed op =
        .error (.notImplementedError ("Operation " ++ op.type ++ " not supported")) := by
  intro code parsed op h
  unfold apply_refactoring
  rw [if_pos h]

/-- Witness for C8 at the repo's own test operation kind. -/
theorem unsupported_operation_rejected_witness :
    supported_operations.contains "unsupported_operation" = false ∧
    apply_refactoring "def test(): pass" (.error .syntaxError)
      { type := "unsupported_operation" } =
      .error (.notImplementedError "Operation unsupported_operation not supported") :=
  ⟨by decide,
   unsupported_operation_rejected "def test(): pass" (.error .syntaxError)
     { type := "unsupported_operation" } (by decide)⟩

/-- C9: `rename_function` agrees on every module with the claim-side
description (rename defining declarations named `old_name` and the callee of
every call through the bare identifier `old_name`; change nothing else), and
a call through an attribute-access callee keeps its callee's attribute intact
(only the attribute's base object and the arguments are recursed into). -/
theorem rename_function_bare_callees_only :
    (∀ (old new : String) (m : PyModule),
      rename_function old new m = rename_function_spec old new m) ∧
    (∀ (old new : String) (v : PyExpr) (a : String) (args : List PyExpr),
      renameFunExpr old new (.call (.attr v a) args) =
        .call (.attr (renameFunExpr old new v) a) (renameFunExprList old new args)) := by
  constructor
  · intro old new m
    show PyModule.mk (renameFunStmtList old new m.body) =
      ⟨renameFunSpecStmtList old new m.body⟩
    rw [renameFunStmtList_eq_spec old new m.body]
  · intro old new v a args
    rfl

/-- C10: `validate_prompt` never raises, returns `true` exactly when
`parse_prompt` returns a request, and returns `false` exactly when
`parse_prompt` raises one of the two resolver exception classes (the only
ones it can raise). -/
theorem validate_prompt_mirrors_parse_prompt :
    ∀ p : String,
      (∃ b, validate_prompt p = .ok b) ∧
      (validate_prompt p = .ok true ↔ ∃ r, parse_prompt p = .ok r) ∧
      (validate_prompt p = .ok false ↔ ∃ e, parse_prompt p = .error e) := by
  intro p
  cases hp : parse_prompt p with
  | ok r =>
    refine ⟨⟨true, ?_⟩, ?_, ?_⟩ <;> simp [validate_prompt, hp]
  | error e =>
    cases e with
    | valueError m =>
      refine ⟨⟨false, ?_⟩, ?_, ?_⟩ <;> simp [validate_prompt, hp]
    | notImplementedError m =>
      refine ⟨⟨false, ?_⟩, ?_, ?_⟩ <;> simp [validate_prompt, hp]
